import Mathlib

/-!
Verification of the pfb_exporter relational-to-PFB transformation engine.

The definitions below are a shallow embedding of the Python sources:
  - pfb_exporter/entity.py   (PfbMetadataEntity, PfbTableRowEntity)
  - pfb_exporter/schema.py   (PfbFileSchema, PfbTableRowEntitySchema,
                              SQLA_AVRO_TYPE_MAP, _create_avro_types)
  - pfb_exporter/builder.py  (PfbFileBuilder.build, yield_entities,
                              _yield_row_entities_from_ndjson, process_first)
  - pfb_exporter/sqla.py     (shape of the orm_models_dict the above consume)

Python dicts are embedded as ordered association lists (Python dicts
iterate in insertion order), JSON scalar values as the inductive Value,
and logger diagnostics as explicitly returned lists.
-/

namespace Pfb

/-- JSON-like scalar value as found in a table row dict. Python None and
JSON null are both Value.null. -/
inductive Value where
  | null
  | str (s : String)
  | int (n : Int)
  | bool (b : Bool)
  deriving DecidableEq, Repr

/-- Python truthiness of a Value: None, 0, empty string and False are
falsy; everything else is truthy. -/
def Value.truthy : Value → Bool
  | .null => false
  | .str s => s != ""
  | .int n => n != 0
  | .bool b => b

/-- a row of data: the column-name-to-value dict passed to
PfbTableRowEntity, embedded as an ordered association list. -/
abbrev RowDict := List (String × Value)

/-- row_dict.get(key): Python dict lookup returning None when absent. -/
def RowDict.get (row : RowDict) (key : String) : Option Value :=
  List.lookup key row

/-- one entry of orm_model_dict.properties, the serialized column dict
produced by sqla.SqlaModelBuilder._column_obj_to_dict (after the
primary_key and foreign_key keys are popped off in to_dict). -/
structure ColumnDict where
  name : String
  sqla_type : String
  nullable : Bool
  default : Value
  doc : String
  item_type : Option String := none
  deriving DecidableEq, Repr

/-- one entry of orm_model_dict.foreign_keys: fkname is the source column
name, table the target table, column the target column. -/
structure ForeignKeyDict where
  fkname : String
  column : String
  table : String
  deriving DecidableEq, Repr

/-- one value of the orm_models_dict produced by
sqla.SqlaModelBuilder.to_dict (the Table Descriptor). -/
structure OrmModelDict where
  table_name : String
  primary_key : String
  properties : List ColumnDict
  foreign_keys : List ForeignKeyDict
  deriving DecidableEq, Repr

/-- the Relational Model: orm_models_dict, a table-name-keyed dict
embedded as an ordered association list. -/
abbrev OrmModelsDict := List (String × OrmModelDict)

/-! ## entity.py : PfbTableRowEntity -/

/-- one relations entry of a Table Row PFB Entity. -/
structure Relation where
  dst_id : Value
  dst_name : String
  deriving DecidableEq, Repr

/-- a Table Row PFB Entity: the dict returned by PfbTableRowEntity.build.
The ENTITY_TEMPLATE file (template/entity.json, not under src/) is
modelled from the spec as contributing exactly the four fields that
build unconditionally overwrites: id, name, object, relations. -/
structure RowEntity where
  id : Value
  name : String
  object : String × RowDict
  relations : List Relation
  deriving DecidableEq, Repr

/-- fk_schema_dict lookup: the dict comprehension in
PfbTableRowEntity.build keys foreign keys by fkname; a later duplicate
key overwrites an earlier one, so the lookup returns the last match. -/
def fkSchemaLookup (fks : List ForeignKeyDict) (col : String) :
    Option ForeignKeyDict :=
  fks.foldl (fun acc fk => if fk.fkname = col then some fk else acc) none

/-- the body of the relations loop of PfbTableRowEntity.build: append
one relation when col is a key of fk_schema_dict and value is truthy. -/
def relationStep (fks : List ForeignKeyDict) (rels : List Relation)
    (p : String × Value) : List Relation :=
  match fkSchemaLookup fks p.1 with
  | some fk => if p.2.truthy then rels ++ [⟨p.2, fk.table⟩] else rels
  | none => rels

/-- the relations loop of PfbTableRowEntity.build: for each (col, value)
of the row dict, run relationStep starting from the empty list. -/
def buildRelations (fks : List ForeignKeyDict) (row : RowDict) :
    List Relation :=
  row.foldl (relationStep fks) []

/-- the relation one row item contributes: some relation exactly when
the column is a foreign key column and the value is truthy. -/
def relationOf (fks : List ForeignKeyDict) (p : String × Value) :
    Option Relation :=
  match fkSchemaLookup fks p.1 with
  | some fk => if p.2.truthy then some ⟨p.2, fk.table⟩ else none
  | none => none

/-- PfbTableRowEntity.build: id is row_dict.get(primary_key) (None, that
is Value.null, when the column is absent), name is the table name, object
is the namespaced row payload, relations come from the loop above. The
idx argument is used only for logging in the source. -/
def pfbTableRowEntityBuild (_idx : Nat) (row : RowDict)
    (m : OrmModelDict) (ns : String) : RowEntity :=
  let id_ := (row.get m.primary_key).getD Value.null
  let table_name := m.table_name
  let relations := buildRelations m.foreign_keys row
  { id := id_
  , name := table_name
  , object := (ns ++ "." ++ table_name, row)
  , relations := relations }

/-! ## entity.py : PfbMetadataEntity -/

/-- one properties entry of a Metadata node. -/
structure MProperty where
  name : String
  deriving DecidableEq, Repr

/-- one links entry of a Metadata node: dst and name are both the foreign
key target table, multiplicity is fixed. -/
structure MLink where
  dst : String
  multiplicity : String
  name : String
  deriving DecidableEq, Repr

/-- one nodes entry of the Metadata Entity. -/
structure MNode where
  name : String
  properties : List MProperty
  links : List MLink
  deriving DecidableEq, Repr

/-- the Metadata PFB Entity built by PfbMetadataEntity.build. Modelled
from the spec: the METADATA_TEMPLATE file (template/metadata.json, not
under src/) supplies the skeleton with name Metadata, empty nodes, and
empty node, property and link skeletons; the loop filling it is
translated from the source. objectTag is the first component of the
namespaced object pair. -/
structure MetadataEntity where
  id : String
  name : String
  objectTag : String
  nodes : List MNode
  deriving DecidableEq, Repr

/-- the per-table node construction of PfbMetadataEntity.build. -/
def buildMetadataNode (table_name : String) (m : OrmModelDict) : MNode :=
  { name := table_name
  , properties := m.properties.map (fun p => ⟨p.name⟩)
  , links := m.foreign_keys.map
      (fun fk => { dst := fk.table, multiplicity := "MANY_TO_ONE"
                 , name := fk.table }) }

/-- PfbMetadataEntity.build: id is set to Metadata, one node per table of
the orm_models_dict in iteration order, object wrapped with the
namespace tag. -/
def pfbMetadataEntityBuild (models : OrmModelsDict) (ns : String) :
    MetadataEntity :=
  let nodes := models.foldl
    (fun acc p => acc ++ [buildMetadataNode p.1 p.2]) []
  { id := "Metadata"
  , name := "Metadata"
  , objectTag := ns ++ "." ++ "Metadata"
  , nodes := nodes }

/-! ## schema.py : type map and PfbTableRowEntitySchema -/

/-- SQLA_AVRO_TYPE_MAP, branch for non-logical types, as a lookup. -/
def sqlaAvroTypeMapOther : String → Option String
  | "Text" => some "string"
  | "Boolean" => some "boolean"
  | "Float" => some "float"
  | "Integer" => some "int"
  | "String" => some "string"
  | "UUID" => some "string"
  | "DateTime" => some "string"
  | "ARRAY" => some "array"
  | _ => none

/-- SQLA_AVRO_TYPE_MAP, branch for logical types, as a lookup. The source
maps DateTime explicitly to None, which dict.get also returns for any
missing key, so both are Option.none here. -/
def sqlaAvroTypeMapLogical : String → Option String
  | "UUID" => some "uuid"
  | _ => none

/-- an Avro type expression as assembled by _create_avro_types: the value
stored under the type key of the field schema. nullT is the JSON string
null naming the Avro null type, absent is Python None (unknown base
type), arrayOf carries the items value returned by the type map (a
string or None), union is a JSON list of branches. -/
inductive AvroType where
  | nullT
  | prim (s : String)
  | absent
  | arrayOf (items : Option String)
  | union (branches : List AvroType)

mutual

/-- decidable equality of Avro type expressions, written by hand because
the nested list of union branches defeats the deriving handler. -/
def AvroType.decEq : (a b : AvroType) → Decidable (a = b)
  | .nullT, .nullT => .isTrue rfl
  | .nullT, .prim _ => .isFalse (fun h => AvroType.noConfusion h)
  | .nullT, .absent => .isFalse (fun h => AvroType.noConfusion h)
  | .nullT, .arrayOf _ => .isFalse (fun h => AvroType.noConfusion h)
  | .nullT, .union _ => .isFalse (fun h => AvroType.noConfusion h)
  | .prim _, .nullT => .isFalse (fun h => AvroType.noConfusion h)
  | .prim s, .prim t =>
    if h : s = t then .isTrue (by rw [h])
    else .isFalse (fun he => h (by injection he))
  | .prim _, .absent => .isFalse (fun h => AvroType.noConfusion h)
  | .prim _, .arrayOf _ => .isFalse (fun h => AvroType.noConfusion h)
  | .prim _, .union _ => .isFalse (fun h => AvroType.noConfusion h)
  | .absent, .nullT => .isFalse (fun h => AvroType.noConfusion h)
  | .absent, .prim _ => .isFalse (fun h => AvroType.noConfusion h)
  | .absent, .absent => .isTrue rfl
  | .absent, .arrayOf _ => .isFalse (fun h => AvroType.noConfusion h)
  | .absent, .union _ => .isFalse (fun h => AvroType.noConfusion h)
  | .arrayOf _, .nullT => .isFalse (fun h => AvroType.noConfusion h)
  | .arrayOf _, .prim _ => .isFalse (fun h => AvroType.noConfusion h)
  | .arrayOf _, .absent => .isFalse (fun h => AvroType.noConfusion h)
  | .arrayOf xs, .arrayOf ys =>
    if h : xs = ys then .isTrue (by rw [h])
    else .isFalse (fun he => h (by injection he))
  | .arrayOf _, .union _ => .isFalse (fun h => AvroType.noConfusion h)
  | .union _, .nullT => .isFalse (fun h => AvroType.noConfusion h)
  | .union _, .prim _ => .isFalse (fun h => AvroType.noConfusion h)
  | .union _, .absent => .isFalse (fun h => AvroType.noConfusion h)
  | .union _, .arrayOf _ => .isFalse (fun h => AvroType.noConfusion h)
  | .union xs, .union ys =>
    match AvroType.decEqList xs ys with
    | .isTrue h => .isTrue (by rw [h])
    | .isFalse h => .isFalse (fun he => h (by injection he))

/-- decidable equality of lists of Avro type expressions. -/
def AvroType.decEqList : (xs ys : List AvroType) → Decidable (xs = ys)
  | [], [] => .isTrue rfl
  | [], _ :: _ => .isFalse (fun h => List.noConfusion h)
  | _ :: _, [] => .isFalse (fun h => List.noConfusion h)
  | x :: xs, y :: ys =>
    match AvroType.decEq x y, AvroType.decEqList xs ys with
    | .isTrue h1, .isTrue h2 => .isTrue (by rw [h1, h2])
    | .isFalse h1, _ =>
      .isFalse (fun he => by injection he with he1 he2; exact h1 he1)
    | _, .isFalse h2 =>
      .isFalse (fun he => by injection he with he1 he2; exact h2 he2)

end

instance : DecidableEq AvroType := AvroType.decEq

/-- a Bool test for whether an Avro type expression is a union. -/
def AvroType.isUnion : AvroType → Bool
  | .union _ => true
  | _ => false

/-- one diagnostic logged by sqla_to_avro_type when no Avro type is found
for a column: key is the column name, sqla_type the unmapped type name
(None when the lookup key itself was missing). -/
structure TypeMapDiag where
  key : String
  sqla_type : Option String
  deriving DecidableEq, Repr

/-- the inner sqla_to_avro_type helper of _create_avro_types with
is_logical False: look the type name up in the non-logical map and log
one error diagnostic when the result is falsy. dict.get on a None key
returns None, so an absent item_type also logs. -/
def sqla_to_avro_type (key : String) (sqla_type : Option String) :
    Option String × List TypeMapDiag :=
  match sqla_type.bind sqlaAvroTypeMapOther with
  | some t => (some t, [])
  | none => (none, [⟨key, sqla_type⟩])

/-- the dict returned by _create_avro_types: the type expression plus the
logical type when one applies. -/
structure AvroTypesOut where
  type : AvroType
  logicalType : Option String
  deriving DecidableEq

/-- the part of _create_avro_types that runs before the nullable check:
map the base type (absent marker when unknown) and wrap arrays.
Returns the type expression the nullable wrap is applied to, with the
diagnostics logged so far in log order. -/
def createTypeCore (c : ColumnDict) : AvroType × List TypeMapDiag :=
  let (avro_type, d1) := sqla_to_avro_type c.name (some c.sqla_type)
  let t0 : AvroType :=
    match avro_type with
    | none => .absent
    | some s => .prim s
  if avro_type = some "array" then
    let (it, d2) := sqla_to_avro_type c.name c.item_type
    (AvroType.arrayOf it, d1 ++ d2)
  else (t0, d1)

/-- PfbTableRowEntitySchema._create_avro_types: run the pre-nullable
mapping, then wrap the two-branch union with a null first branch when
nullable, and attach the logical type. -/
def create_avro_types (c : ColumnDict) : AvroTypesOut × List TypeMapDiag :=
  let (t1, d) := createTypeCore c
  let t2 := if c.nullable then AvroType.union [AvroType.nullT, t1] else t1
  ({ type := t2, logicalType := sqlaAvroTypeMapLogical c.sqla_type }, d)

/-- one fields entry of a table row record schema: the prop_schema dict
assembled in PfbTableRowEntitySchema.build. -/
structure AvroField where
  type : AvroType
  logicalType : Option String
  default : Value
  name : String
  doc : String
  deriving DecidableEq

/-- a named Avro record schema with ordered fields. -/
structure RecordSchema where
  name : String
  fields : List AvroField
  deriving DecidableEq

/-- the per-column field construction of PfbTableRowEntitySchema.build,
paired with the diagnostics its type mapping logged. -/
def buildField (c : ColumnDict) : AvroField × List TypeMapDiag :=
  let (types, d) := create_avro_types c
  ({ type := types.type
   , logicalType := types.logicalType
   , default := c.default
   , name := c.name
   , doc := c.doc }, d)

/-- PfbTableRowEntitySchema.build: a record schema named after the table
with one field per column, in column order; diagnostics are concatenated
in loop order. -/
def pfbTableRowEntitySchemaBuild (m : OrmModelDict) :
    RecordSchema × List TypeMapDiag :=
  (⟨m.table_name, m.properties.map (fun c => (buildField c).1)⟩,
   m.properties.foldl (fun acc c => acc ++ (buildField c).2) [])

/-! ## schema.py : PfbFileSchema -/

/-- one branch of the object union of the PFB file schema: the fixed
Metadata entity schema (loaded from template/metadata_schema.json, a
file not under src/, and treated as an opaque constant) or one table row
record schema. -/
inductive ObjectSchema where
  | metadata
  | tableRow (r : RecordSchema)
  deriving DecidableEq

/-- the type of one top-level field after PfbFileSchema.build ran: either
the untouched value from the template or the inserted object union. -/
inductive OutFieldType where
  | fromTemplate (v : Value)
  | objectUnion (schemas : List ObjectSchema)
  deriving DecidableEq

/-- one top-level field of the PFB file schema template
(template/pfb_schema.json, not under src/). Modelled from the spec: the
base container template is a record whose fields list is expected to
hold a placeholder field named object. -/
structure TemplateField where
  name : String
  type : Value
  deriving DecidableEq

/-- one top-level field of the assembled PFB file schema. -/
structure OutField where
  name : String
  type : OutFieldType
  deriving DecidableEq

/-- the assembled PFB file schema: the template with its namespace set
and, when the placeholder was found, the object union inserted. -/
structure PfbFileSchemaOut where
  nspace : String
  fields : List OutField
  deriving DecidableEq

/-- the for loop of PfbFileSchema.build: walk the template fields and
replace the type of the first field named object with the union of
object schemas, leaving every other field untouched; break after the
first match. -/
def setObjectField (schemas : List ObjectSchema) :
    List TemplateField → List OutField
  | [] => []
  | f :: rest =>
    if f.name = "object" then
      ⟨f.name, .objectUnion schemas⟩ ::
        rest.map (fun g => ⟨g.name, .fromTemplate g.type⟩)
    else
      ⟨f.name, .fromTemplate f.type⟩ :: setObjectField schemas rest

/-- PfbFileSchema.build: set the namespace, form the object schemas list
with the Metadata schema first and one table row schema per model in
iteration order, insert it at the object placeholder, and run the assert
whose condition tests the object schemas list (not whether the
placeholder was found). The Except error branch is the AssertionError. -/
def pfbFileSchemaBuild (template : List TemplateField) (ns : String)
    (models : OrmModelsDict) : Except String PfbFileSchemaOut :=
  let object_schemas := ObjectSchema.metadata ::
    models.map (fun p => .tableRow (pfbTableRowEntitySchemaBuild p.2).1)
  let fields := setObjectField object_schemas template
  if object_schemas.isEmpty then
    .error "Could not find the object field in pfb_schema_template.fields"
  else
    .ok { nspace := ns, fields := fields }

/-! ## builder.py : the ndjson row source and PfbFileBuilder.build -/

/-- one parsed record of a JSON ND file: a bare JSON string, a JSON
object (a row dict), or any other JSON value. -/
inductive JRecord where
  | str (s : String)
  | obj (row : RowDict)
  | other (v : Value)
  deriving DecidableEq, Repr

/-- an error raised while processing a JSON ND file. notAString is the
TypeError raised by process_first for a non-string first record (its
message does not list the valid table names); unknownTable is the
ValueError raised for a string that is not a key of the orm_models_dict
(its message lists the valid table names, carried here); rowNotAnObject
is the AttributeError a non-dict row record causes inside
PfbTableRowEntity.build. -/
inductive NdjsonError where
  | notAString
  | unknownTable (validTables : List String)
  | rowNotAnObject
  deriving DecidableEq, Repr

/-- the list of valid table names: the keys of the orm_models_dict, in
iteration order. -/
def modelTables (models : OrmModelsDict) : List String :=
  models.map (fun p => p.1)

/-- the table names an NdjsonError enumerates: only unknownTable carries
them. -/
def NdjsonError.enumeratedTables : NdjsonError → Option (List String)
  | .unknownTable ts => some ts
  | _ => none

/-- process_first from _yield_row_entities_from_ndjson: a non-string
first record raises TypeError; a string that is not one of the table
names raises ValueError with the table set in the message; otherwise
the table name is returned. -/
def process_first (models : OrmModelsDict) :
    JRecord → Except NdjsonError String
  | .str s =>
    if (modelTables models).contains s then .ok s
    else .error (.unknownTable (modelTables models))
  | _ => .error .notAString

/-- the per-file loop of _yield_row_entities_from_ndjson: the first
record must name a table, every later record is turned into a Table Row
PFB Entity for that table. An empty file yields nothing. The row index
i of the source enumerate is passed through to the entity builder. The
lookup of the table name in the orm_models_dict cannot miss after
process_first succeeded; the error branch mirrors the KeyError that
indexing would raise. -/
def yieldRowEntitiesFromFile (models : OrmModelsDict) (ns : String) :
    List JRecord → Except NdjsonError (List RowEntity)
  | [] => .ok []
  | first :: rest => do
    let table_name ← process_first models first
    match List.lookup table_name models with
    | none => .error (.unknownTable (modelTables models))
    | some m =>
      (rest.enumFrom 1).mapM (fun ri =>
        match ri.2 with
        | .obj row => .ok (pfbTableRowEntityBuild ri.1 row m ns)
        | _ => .error NdjsonError.rowNotAnObject)

/-- _yield_row_entities_from_ndjson over the whole data dir: files are
processed in listing order and their entities concatenated; the first
error aborts the run. -/
def yieldRowEntitiesFromNdjson (models : OrmModelsDict) (ns : String)
    (files : List (List JRecord)) : Except NdjsonError (List RowEntity) :=
  files.foldlM
    (fun acc file => do
      let es ← yieldRowEntitiesFromFile models ns file
      pure (acc ++ es))
    []

/-- one record written to the PFB Avro file: either the Metadata entity
or a Table Row entity. -/
inductive PfbWrittenRecord where
  | metadataRec (m : MetadataEntity)
  | rowRec (r : RowEntity)
  deriving DecidableEq, Repr

/-- the name field of a written record. -/
def PfbWrittenRecord.name : PfbWrittenRecord → String
  | .metadataRec m => m.name
  | .rowRec r => r.name

/-- PfbFileBuilder.yield_entities: the chain of the Metadata entity
followed by the table row entities. -/
def yield_entities (models : OrmModelsDict) (ns : String)
    (rows : List RowEntity) : List PfbWrittenRecord :=
  .metadataRec (pfbMetadataEntityBuild models ns) :: rows.map .rowRec

/-- the record stream PfbFileBuilder.build writes for the ndjson row
source: build assigns g directly from _yield_row_entities_from_ndjson
and writes each yielded entity, so the written records are exactly the
table row entities; yield_entities is not invoked. -/
def pfbFileBuilderBuildRecords (models : OrmModelsDict) (ns : String)
    (files : List (List JRecord)) :
    Except NdjsonError (List PfbWrittenRecord) :=
  (yieldRowEntitiesFromNdjson models ns files).map
    (fun es => es.map .rowRec)

/-! ## state-passing builders

The three builders below thread the orm model dict (the Relational
Model) through every loop iteration as an explicit heap value, so that
the frame property, namely that no statement of the source writes into
the model, is statable: each translated statement only reads the
threaded state and returns it unchanged. -/

/-- PfbMetadataEntity.build with the orm_models_dict threaded through
the per-table loop. -/
def pfbMetadataEntityBuildSt (models : OrmModelsDict) (ns : String) :
    MetadataEntity × OrmModelsDict :=
  let step := models.foldl
    (fun (acc : List MNode × OrmModelsDict) p =>
      (acc.1 ++ [buildMetadataNode p.1 p.2], acc.2))
    ([], models)
  ({ id := "Metadata"
   , name := "Metadata"
   , objectTag := ns ++ "." ++ "Metadata"
   , nodes := step.1 }, step.2)

/-- PfbTableRowEntity.build with the orm_model_dict threaded through the
relations loop. -/
def pfbTableRowEntityBuildSt (_idx : Nat) (row : RowDict)
    (m : OrmModelDict) (ns : String) : RowEntity × OrmModelDict :=
  let step := row.foldl
    (fun (acc : List Relation × OrmModelDict) p =>
      match fkSchemaLookup acc.2.foreign_keys p.1 with
      | some fk =>
        (if p.2.truthy then acc.1 ++ [⟨p.2, fk.table⟩] else acc.1, acc.2)
      | none => (acc.1, acc.2))
    ([], m)
  ({ id := (row.get step.2.primary_key).getD Value.null
   , name := step.2.table_name
   , object := (ns ++ "." ++ step.2.table_name, row)
   , relations := step.1 }, step.2)

/-- PfbTableRowEntitySchema.build with the orm_model_dict threaded
through the per-column loop. -/
def pfbTableRowEntitySchemaBuildSt (m : OrmModelDict) :
    (RecordSchema × List TypeMapDiag) × OrmModelDict :=
  let step := m.properties.foldl
    (fun (acc : (List AvroField × List TypeMapDiag) × OrmModelDict) c =>
      ((acc.1.1 ++ [(buildField c).1], acc.1.2 ++ (buildField c).2), acc.2))
    (([], []), m)
  ((⟨step.2.table_name, step.1.1⟩, step.1.2), step.2)

/-! ## concrete fixtures, following the example scenario of the spec -/

/-- the participant table of the example scenario: one primary key
column and no foreign keys. -/
def participantModel : OrmModelDict :=
  { table_name := "participant"
  , primary_key := "kf_id"
  , properties := [⟨"kf_id", "String", false, Value.null, "", none⟩]
  , foreign_keys := [] }

/-- the biospecimen table of the example scenario: string primary key
kf_id and a nullable foreign key participant_id targeting participant. -/
def biospecimenModel : OrmModelDict :=
  { table_name := "biospecimen"
  , primary_key := "kf_id"
  , properties :=
      [ ⟨"kf_id", "String", false, Value.null, "", none⟩
      , ⟨"participant_id", "String", true, Value.null, "", none⟩ ]
  , foreign_keys := [⟨"participant_id", "kf_id", "participant"⟩] }

/-- the Relational Model of the example scenario. -/
def demoModels : OrmModelsDict :=
  [("biospecimen", biospecimenModel), ("participant", participantModel)]

/-- one well-formed JSON ND file for the biospecimen table with two
rows, the second with a null foreign key value. -/
def demoFiles : List (List JRecord) :=
  [[ JRecord.str "biospecimen"
   , JRecord.obj
       [("kf_id", Value.str "BS_1"), ("participant_id", Value.str "PT_1")]
   , JRecord.obj
       [("kf_id", Value.str "BS_2"), ("participant_id", Value.null)] ]]

/-- a base container template whose fields hold no placeholder named
object. -/
def pfbTemplateNoObject : List TemplateField :=
  [⟨"id", Value.str "string"⟩, ⟨"name", Value.str "string"⟩]

/-! ## lemmas about the relations loop -/

/-- the relations loop with any starting accumulator appends exactly the
relations the row items contribute, in row order. -/
theorem foldl_relationStep (fks : List ForeignKeyDict) (row : RowDict) :
    ∀ acc : List Relation,
      row.foldl (relationStep fks) acc = acc ++ row.filterMap (relationOf fks) := by
  induction row with
  | nil => intro acc; simp
  | cons p t ih =>
    intro acc
    rw [List.foldl_cons, ih]
    unfold relationStep relationOf
    cases h : fkSchemaLookup fks p.1 with
    | none => simp [List.filterMap_cons, relationOf, h]
    | some fk =>
      cases ht : p.2.truthy with
      | false => simp [List.filterMap_cons, relationOf, h, ht]
      | true => simp [List.filterMap_cons, relationOf, h, ht]

/-- buildRelations is the filterMap of the per-item contribution. -/
theorem buildRelations_eq_filterMap (fks : List ForeignKeyDict)
    (row : RowDict) :
    buildRelations fks row = row.filterMap (relationOf fks) := by
  rw [buildRelations, foldl_relationStep]
  simp

/-- counting one value in a filterMap image counts the items mapped to
it. -/
theorem count_filterMap_eq_length_filter {α β : Type} [DecidableEq β]
    (f : α → Option β) (l : List α) (b : β) :
    (l.filterMap f).count b =
      (l.filter (fun a => f a == some b)).length := by
  induction l with
  | nil => rfl
  | cons a t ih =>
    rw [List.filterMap_cons, List.filter_cons]
    cases h : f a with
    | none => simpa using ih
    | some c =>
      by_cases hc : c = b
      · subst hc
        simp [List.count_cons, ih]
      · simp [List.count_cons, ih, hc]

/-! ## lemmas about the type mapper -/

/-- the pre-nullable part of the type mapping never reads the nullable
flag. -/
theorem createTypeCore_update_nullable (c : ColumnDict) (b : Bool) :
    createTypeCore { c with nullable := b } = createTypeCore c := rfl

/-- the type expression _create_avro_types emits is the pre-nullable
type, wrapped in the null-first union exactly when nullable. -/
theorem create_avro_types_type (c : ColumnDict) :
    (create_avro_types c).1.type =
      (if c.nullable then AvroType.union [AvroType.nullT, (createTypeCore c).1]
       else (createTypeCore c).1) := by
  cases hcore : createTypeCore c with
  | mk t d => simp [create_avro_types, hcore]

/-- the pre-nullable type expression is never a union. -/
theorem createTypeCore_not_union (c : ColumnDict) :
    ((createTypeCore c).1).isUnion = false := by
  unfold createTypeCore
  cases h : sqla_to_avro_type c.name (some c.sqla_type) with
  | mk a d1 =>
    cases ha : a with
    | none => simp [AvroType.isUnion]
    | some s =>
      by_cases hs : s = "array"
      · subst hs
        cases h2 : sqla_to_avro_type c.name c.item_type with
        | mk it d2 => simp [h2, AvroType.isUnion]
      · simp [hs, AvroType.isUnion]

/-! ## claim theorems -/

/-- C3: for every column, the synthesized Avro field type is the
two-branch union with the null branch first when the column is nullable
(the second branch being exactly the type synthesized for the
non-nullable column), and exactly that type, which is never a union,
when it is not nullable; this holds regardless of array or logical-type
wrapping because the column is universally quantified. -/
theorem C3_nullable_wraps_null_first_union (c : ColumnDict) :
    (create_avro_types { c with nullable := true }).1.type =
      AvroType.union [AvroType.nullT,
        (create_avro_types { c with nullable := false }).1.type]
    ∧ ((create_avro_types { c with nullable := false }).1.type).isUnion = false
    ∧ (create_avro_types c).1.type =
        (if c.nullable then
          AvroType.union [AvroType.nullT,
            (create_avro_types { c with nullable := false }).1.type]
         else (create_avro_types { c with nullable := false }).1.type) := by
  have hf : (create_avro_types { c with nullable := false }).1.type =
      (createTypeCore c).1 := by
    rw [create_avro_types_type, createTypeCore_update_nullable]
    simp
  have ht : (create_avro_types { c with nullable := true }).1.type =
      AvroType.union [AvroType.nullT, (createTypeCore c).1] := by
    rw [create_avro_types_type, createTypeCore_update_nullable]
    simp
  refine ⟨by rw [ht, hf], by rw [hf]; exact createTypeCore_not_union c, ?_⟩
  rw [hf, create_avro_types_type]

/-- C2 counterexample: the biospecimen row value 0 for the foreign key
column participant_id is present and non-null, yet the built Row Entity
has an empty relations list, because the source gates relation emission
on Python truthiness and 0 is falsy. -/
theorem C2_counterexample_nonnull_falsy_fk :
    RowDict.get
        [("kf_id", Value.str "BS_1"), ("participant_id", Value.int 0)]
        "participant_id" = some (Value.int 0)
    ∧ Value.int 0 ≠ Value.null
    ∧ (pfbTableRowEntityBuild 1
        [("kf_id", Value.str "BS_1"), ("participant_id", Value.int 0)]
        biospecimenModel "pfb").relations = [] :=
  ⟨rfl, by decide, rfl⟩

/-- C2 amended: the relations list of a built Row Entity holds one entry
with dst_id v and dst_name T per row column whose value is v, is truthy,
and whose name is a foreign key column targeting table T; columns whose
values are null, absent, or otherwise falsy contribute no entry. -/
theorem C2_relations_count (idx : Nat) (row : RowDict) (m : OrmModelDict)
    (ns : String) (v : Value) (T : String) :
    ((pfbTableRowEntityBuild idx row m ns).relations).count ⟨v, T⟩ =
      (row.filter (fun p =>
        p.2 == v && p.2.truthy &&
          ((fkSchemaLookup m.foreign_keys p.1).map ForeignKeyDict.table
            == some T))).length := by
  show (buildRelations m.foreign_keys row).count ⟨v, T⟩ = _
  rw [buildRelations_eq_filterMap, count_filterMap_eq_length_filter]
  congr 1
  apply List.filter_congr
  intro p _
  cases h : fkSchemaLookup m.foreign_keys p.1 with
  | none => simp [relationOf, h]
  | some fk =>
    cases htr : p.2.truthy with
    | false => simp [relationOf, h, htr]
    | true =>
      simp only [relationOf, h, htr, if_true, Option.map_some]
      apply Bool.eq_iff_iff.mpr
      simp [Relation.mk.injEq, and_comm]

/-- a row item with a falsy value contributes no relation. -/
theorem relationOf_falsy (fks : List ForeignKeyDict) (p : String × Value)
    (h : p.2.truthy = false) : relationOf fks p = none := by
  unfold relationOf
  cases hl : fkSchemaLookup fks p.1 <;> simp [h]

/-- C10: relation emission is gated on the truthiness of the value, not
on it being non-null: dropping every falsy-valued item from a row leaves
the relations of the built Row Entity unchanged, and appending a column
with a falsy value (0, the empty string, False, or null) never adds a
relation entry. -/
theorem C10_relations_gated_on_truthiness (idx : Nat) (row : RowDict)
    (m : OrmModelDict) (ns : String) :
    (pfbTableRowEntityBuild idx (row.filter (fun p => p.2.truthy)) m ns).relations
        = (pfbTableRowEntityBuild idx row m ns).relations
    ∧ ∀ col v, v.truthy = false →
        (pfbTableRowEntityBuild idx (row ++ [(col, v)]) m ns).relations =
          (pfbTableRowEntityBuild idx row m ns).relations := by
  constructor
  · show buildRelations m.foreign_keys (row.filter (fun p => p.2.truthy)) =
      buildRelations m.foreign_keys row
    rw [buildRelations_eq_filterMap, buildRelations_eq_filterMap]
    induction row with
    | nil => rfl
    | cons p t ih =>
      rw [List.filter_cons]
      cases htr : p.2.truthy with
      | false =>
        simp only [Bool.false_eq_true, if_false]
        rw [ih, List.filterMap_cons, relationOf_falsy m.foreign_keys p htr]
      | true =>
        simp only [if_true]
        rw [List.filterMap_cons, List.filterMap_cons, ih]
  · intro col v hv
    show buildRelations m.foreign_keys (row ++ [(col, v)]) =
      buildRelations m.foreign_keys row
    rw [buildRelations_eq_filterMap, buildRelations_eq_filterMap,
      List.filterMap_append]
    rw [List.filterMap_cons, relationOf_falsy m.foreign_keys (col, v) hv]
    simp

/-- C10 witness: appending the falsy foreign key value 0 to a concrete
biospecimen row leaves the relations of the built Row Entity unchanged. -/
theorem C10_witness :
    (Value.int 0).truthy = false
    ∧ (pfbTableRowEntityBuild 1
        ([("kf_id", Value.str "BS_1")] ++ [("participant_id", Value.int 0)])
        biospecimenModel "pfb").relations =
      (pfbTableRowEntityBuild 1 [("kf_id", Value.str "BS_1")]
        biospecimenModel "pfb").relations :=
  ⟨rfl,
   (C10_relations_gated_on_truthiness 1 [("kf_id", Value.str "BS_1")]
      biospecimenModel "pfb").2 "participant_id" (Value.int 0) rfl⟩

/-- C6 counterexample: a biospecimen row without its primary key column
kf_id still builds successfully into a Row Entity (with a null id); the
run does not fail at entity-build time, contradicting the claim that
building is a fatal error for such a row. -/
theorem C6_counterexample_entity_produced :
    pfbTableRowEntityBuild 1 [("foo", Value.str "x")] biospecimenModel "pfb" =
      { id := Value.null
      , name := "biospecimen"
      , object := ("pfb.biospecimen", [("foo", Value.str "x")])
      , relations := [] } := rfl

/-- C6 amended: for every row whose primary key column is absent from
the column-to-value mapping, building the Row Entity succeeds and yields
an entity whose id is null (row_dict.get returns None, which build
stores unchanged). -/
theorem C6_missing_pk_null_id (idx : Nat) (row : RowDict)
    (m : OrmModelDict) (ns : String)
    (h : RowDict.get row m.primary_key = none) :
    (pfbTableRowEntityBuild idx row m ns).id = Value.null := by
  show (RowDict.get row m.primary_key).getD Value.null = Value.null
  rw [h]
  rfl

/-- C6 witness: the amended theorem applied to a concrete biospecimen
row lacking kf_id. -/
theorem C6_witness :
    (pfbTableRowEntityBuild 2 [("volume_ul", Value.int 7)]
      biospecimenModel "pfb").id = Value.null :=
  C6_missing_pk_null_id 2 [("volume_ul", Value.int 7)]
    biospecimenModel "pfb" rfl

/-- C7 counterexample: a non-string first record (the number 42) fails
the run with the TypeError branch, whose error does not enumerate the
valid table names (only the unknown-table ValueError branch carries
them), contradicting the claim that every malformed first record gets
an error enumerating the valid table set. -/
theorem C7_counterexample_nonstring_no_enumeration :
    process_first demoModels (JRecord.other (Value.int 42)) =
        .error .notAString
    ∧ NdjsonError.enumeratedTables .notAString = none :=
  ⟨rfl, rfl⟩

/-- C7 amended: a first record that is a string naming an unknown table
fails immediately with an error enumerating the valid table names; a
first record that is not a string fails immediately with a type error
that does not enumerate them; in both cases processing the file yields
the error and no Row Entity. -/
theorem C7_first_record_validation (models : OrmModelsDict) (ns : String)
    (first : JRecord) (rest : List JRecord) :
    (∀ s, first = JRecord.str s → (modelTables models).contains s = false →
        process_first models first =
          .error (.unknownTable (modelTables models)))
    ∧ ((∀ s, first ≠ JRecord.str s) →
        process_first models first = .error .notAString)
    ∧ (∀ e, process_first models first = .error e →
        yieldRowEntitiesFromFile models ns (first :: rest) = .error e) := by
  refine ⟨?_, ?_, ?_⟩
  · intro s hs hcontains
    subst hs
    simp only [process_first, hcontains, Bool.false_eq_true, if_false]
  · intro hnot
    cases first with
    | str s => exact absurd rfl (hnot s)
    | obj row => rfl
    | other v => rfl
  · intro e he
    show (process_first models first >>= fun table_name => _) = .error e
    rw [he]
    rfl

/-- C7 witness: the amended theorem applied to the two concrete
malformed first records of the example scenario. -/
theorem C7_witness :
    process_first demoModels (JRecord.str "unknown_tbl") =
        .error (.unknownTable ["biospecimen", "participant"])
    ∧ yieldRowEntitiesFromFile demoModels "pfb"
        [JRecord.str "unknown_tbl",
         JRecord.obj [("kf_id", Value.str "BS_1")]] =
        .error (.unknownTable ["biospecimen", "participant"])
    ∧ yieldRowEntitiesFromFile demoModels "pfb"
        [JRecord.other (Value.int 42)] = .error .notAString := by
  have h1 := (C7_first_record_validation demoModels "pfb"
    (JRecord.str "unknown_tbl")
    [JRecord.obj [("kf_id", Value.str "BS_1")]]).1 "unknown_tbl" rfl rfl
  have h2 := (C7_first_record_validation demoModels "pfb"
    (JRecord.str "unknown_tbl")
    [JRecord.obj [("kf_id", Value.str "BS_1")]]).2.2 _ h1
  have h3 := (C7_first_record_validation demoModels "pfb"
    (JRecord.other (Value.int 42)) []).2.1 (fun s h => JRecord.noConfusion h)
  have h4 := (C7_first_record_validation demoModels "pfb"
    (JRecord.other (Value.int 42)) []).2.2 _ h3
  exact ⟨h1, h2, h4⟩

/-- C1: on a successful export over a well-formed biospecimen file,
PfbFileBuilder.build writes only Table Row entities: the first record
read back is named biospecimen, not Metadata, and no written record is
named Metadata. build assigns its generator directly from
_yield_row_entities_from_ndjson and never invokes yield_entities, the
only place the Metadata entity is chained in first. -/
theorem C1_build_writes_no_metadata :
    (pfbFileBuilderBuildRecords demoModels "pfb" demoFiles).map
        (fun rs => rs.map PfbWrittenRecord.name) =
      Except.ok ["biospecimen", "biospecimen"]
    ∧ (match pfbFileBuilderBuildRecords demoModels "pfb" demoFiles with
       | .ok rs => rs.all (fun r => r.name != "Metadata")
       | .error _ => false) = true
    ∧ (yield_entities demoModels "pfb" []).map PfbWrittenRecord.name =
        ["Metadata"] :=
  ⟨rfl, rfl, rfl⟩

/-- a Bool test for whether an assembled top-level field carries the
inserted object union. -/
def OutFieldType.isObjectUnion : OutFieldType → Bool
  | .objectUnion _ => true
  | _ => false

/-- C4: on a base container template with no top-level field named
object, PfbFileSchema.build returns successfully with a schema that
silently lacks the union: the assert that should catch the missing
placeholder tests the object schemas list, which always holds at least
the Metadata schema and is therefore never empty. -/
theorem C4_missing_placeholder_not_fatal :
    pfbFileSchemaBuild pfbTemplateNoObject "pfb" demoModels =
      Except.ok
        { nspace := "pfb"
        , fields :=
            [ ⟨"id", OutFieldType.fromTemplate (Value.str "string")⟩
            , ⟨"name", OutFieldType.fromTemplate (Value.str "string")⟩ ] }
    ∧ (match pfbFileSchemaBuild pfbTemplateNoObject "pfb" demoModels with
       | .ok s => s.fields.all (fun f => !f.type.isObjectUnion)
       | .error _ => false) = true :=
  ⟨rfl, rfl⟩

/-- C8: synthesizing the Graph Schema of a Relational Model twice yields
structurally identical output: the embedding of the synthesizer is a
pure function of the template, the namespace and the orm_models_dict
(the only iteration the source performs, over the insertion-ordered
model dict and the column lists, is embedded as list traversal), so two
runs are equal terms. -/
theorem C8_schema_determinism (template : List TemplateField)
    (ns : String) (models : OrmModelsDict) (m : OrmModelDict) :
    pfbFileSchemaBuild template ns models =
        pfbFileSchemaBuild template ns models
    ∧ pfbTableRowEntitySchemaBuild m = pfbTableRowEntitySchemaBuild m :=
  ⟨rfl, rfl⟩

/-- a fold whose step leaves the second accumulator component unchanged
leaves it unchanged over the whole list. -/
theorem foldl_snd_eq {α β γ : Type _} (f : β × γ → α → β × γ)
    (hf : ∀ acc a, (f acc a).2 = acc.2) :
    ∀ (l : List α) (acc : β × γ), (l.foldl f acc).2 = acc.2 := by
  intro l
  induction l with
  | nil => intro acc; rfl
  | cons a t ih => intro acc; rw [List.foldl_cons, ih, hf]

/-- C9: the Relational Model is never mutated downstream: the Metadata
entity builder, the Row entity builder and the table row schema builder,
each translated with the model threaded through its loop as explicit
state, all return the model exactly as given. -/
theorem C9_model_read_only (models : OrmModelsDict) (ns : String)
    (idx : Nat) (row : RowDict) (m : OrmModelDict) :
    (pfbMetadataEntityBuildSt models ns).2 = models
    ∧ (pfbTableRowEntityBuildSt idx row m ns).2 = m
    ∧ (pfbTableRowEntitySchemaBuildSt m).2 = m := by
  refine ⟨?_, ?_, ?_⟩
  · exact foldl_snd_eq
      (fun (acc : List MNode × OrmModelsDict) p =>
        (acc.1 ++ [buildMetadataNode p.1 p.2], acc.2))
      (fun acc a => rfl) models ([], models)
  · refine foldl_snd_eq
      (fun (acc : List Relation × OrmModelDict) p =>
        match fkSchemaLookup acc.2.foreign_keys p.1 with
        | some fk =>
          (if p.2.truthy then acc.1 ++ [⟨p.2, fk.table⟩] else acc.1, acc.2)
        | none => (acc.1, acc.2))
      (fun acc p => ?_) row ([], m)
    cases h : fkSchemaLookup acc.2.foreign_keys p.1 <;> simp [h]
  · exact foldl_snd_eq
      (fun (acc : (List AvroField × List TypeMapDiag) × OrmModelDict) c =>
        ((acc.1.1 ++ [(buildField c).1], acc.1.2 ++ (buildField c).2), acc.2))
      (fun acc a => rfl) m.properties (([], []), m)

/-- a built field keeps the column name. -/
theorem buildField_name (c : ColumnDict) : (buildField c).1.name = c.name := by
  unfold buildField
  cases h : create_avro_types c with
  | mk a d => simp [h]

/-- the synthesized record schema has one field per column, in column
order, with the column names. -/
theorem schema_field_names (m : OrmModelDict) :
    ((pfbTableRowEntitySchemaBuild m).1.fields).map AvroField.name =
      m.properties.map ColumnDict.name := by
  show ((m.properties.map fun c => (buildField c).1).map AvroField.name) = _
  rw [List.map_map]
  exact List.map_congr_left (fun c _ => buildField_name c)

/-- a fold that only appends produces the flattened per-item lists. -/
theorem foldl_append_eq_flatten {α β : Type _} (f : α → List β) :
    ∀ (l : List α) (acc : List β),
      l.foldl (fun a c => a ++ f c) acc = acc ++ (l.map f).flatten := by
  intro l
  induction l with
  | nil => intro acc; simp
  | cons a t ih => intro acc; rw [List.foldl_cons, ih]; simp

/-- the diagnostics of a table row schema build are the concatenated
per-column diagnostics. -/
theorem schema_diags_eq (m : OrmModelDict) :
    (pfbTableRowEntitySchemaBuild m).2 =
      (m.properties.map (fun c => (buildField c).2)).flatten := by
  show m.properties.foldl (fun a c => a ++ (buildField c).2) [] = _
  rw [foldl_append_eq_flatten (fun c => (buildField c).2)]
  simp

/-- a column whose base type is not in the supported map gets the absent
type marker (under the nullable union when nullable) and exactly one
diagnostic. -/
theorem buildField_unknown (c : ColumnDict)
    (hu : sqlaAvroTypeMapOther c.sqla_type = none) :
    buildField c =
      ({ type := if c.nullable then
             AvroType.union [AvroType.nullT, AvroType.absent]
           else AvroType.absent
       , logicalType := sqlaAvroTypeMapLogical c.sqla_type
       , default := c.default
       , name := c.name
       , doc := c.doc },
       [⟨c.name, some c.sqla_type⟩]) := by
  have hst : sqla_to_avro_type c.name (some c.sqla_type) =
      (none, [⟨c.name, some c.sqla_type⟩]) := by
    simp [sqla_to_avro_type, hu]
  have hcore : createTypeCore c =
      (AvroType.absent, [⟨c.name, some c.sqla_type⟩]) := by
    unfold createTypeCore
    rw [hst]
    simp
  unfold buildField create_avro_types
  rw [hcore]

/-- C5: for a column whose base type is outside the supported type map,
type mapping fails softly: the schema build is total, every column still
gets a field (name list preserved in order, the field for the unknown
column present), the unknown column's type is the absent marker (inside
the nullable union when nullable), and one diagnostic is recorded while
the other columns of the table are still synthesized. -/
theorem C5_unknown_type_soft_failure (m : OrmModelDict) (p : ColumnDict)
    (hp : p ∈ m.properties)
    (hu : sqlaAvroTypeMapOther p.sqla_type = none) :
    ((pfbTableRowEntitySchemaBuild m).1.fields).map AvroField.name =
        m.properties.map ColumnDict.name
    ∧ (buildField p).1 ∈ (pfbTableRowEntitySchemaBuild m).1.fields
    ∧ (buildField p).1.type =
        (if p.nullable then AvroType.union [AvroType.nullT, AvroType.absent]
         else AvroType.absent)
    ∧ TypeMapDiag.mk p.name (some p.sqla_type) ∈
        (pfbTableRowEntitySchemaBuild m).2 := by
  refine ⟨schema_field_names m, ?_, ?_, ?_⟩
  · show _ ∈ m.properties.map fun c => (buildField c).1
    exact List.mem_map_of_mem _ hp
  · rw [buildField_unknown p hu]
  · rw [schema_diags_eq, List.mem_flatten]
    refine ⟨(buildField p).2, List.mem_map_of_mem _ hp, ?_⟩
    rw [buildField_unknown p hu]
    exact List.mem_singleton_self _

/-- a genomic_file table with a JSONB column, a base type absent from
the supported map. -/
def jsonbCol : ColumnDict :=
  ⟨"metadata_blob", "JSONB", true, Value.null, "", none⟩

/-- a table holding jsonbCol next to an ordinary string primary key. -/
def jsonbModel : OrmModelDict :=
  { table_name := "genomic_file"
  , primary_key := "kf_id"
  , properties := [⟨"kf_id", "String", false, Value.null, "", none⟩, jsonbCol]
  , foreign_keys := [] }

/-- C5 witness: the soft-failure theorem applied to the concrete JSONB
column of the genomic_file table. -/
theorem C5_witness :
    ((pfbTableRowEntitySchemaBuild jsonbModel).1.fields).map AvroField.name =
        jsonbModel.properties.map ColumnDict.name
    ∧ (buildField jsonbCol).1 ∈ (pfbTableRowEntitySchemaBuild jsonbModel).1.fields
    ∧ (buildField jsonbCol).1.type =
        (if jsonbCol.nullable then
          AvroType.union [AvroType.nullT, AvroType.absent]
         else AvroType.absent)
    ∧ TypeMapDiag.mk "metadata_blob" (some "JSONB") ∈
        (pfbTableRowEntitySchemaBuild jsonbModel).2 :=
  C5_unknown_type_soft_failure jsonbModel jsonbCol
    (by simp [jsonbModel]) rfl

end Pfb
